import Mathlib

/-!
Verification of the campus/teacher/class/subject assignment consistency model
of the LXP repository, as implemented in
`src/server/services/CampusTeacherService.ts`,
`src/server/services/TeacherCampusService.ts` and the student-side mirror
`CampusStudentService`. The relational state (tables "TeacherCampus",
"TeacherClassAssignment", "TeacherSubjectAssignment", plus the read-only
Teacher/Campus/Class/Subject tables) is embedded as lists of rows; each
service method becomes a function from a database state to the pair of the
resulting state and an `Except`-style outcome. Raw-SQL statements that can
fail on storage constraints (the unique indexes and foreign keys declared in
the migration `src/unnamed/part_000`) are modelled as failing statements;
since the source wraps only `TeacherCampusService.removeTeacherFromCampus`
in a transaction, every other operation is modelled as executing its
statements sequentially, keeping the writes made before a failure.
Timestamps (joinedAt/createdAt/updatedAt) carry no logic and are omitted;
row ids are natural numbers drawn from a freshness counter standing in for
generated uuids/cuids. The permission oracle (`CampusUserService`, an
external collaborator) is a function-valued parameter.
-/

namespace AssignmentModel

/-- The `Status` enum of the Prisma schema, as used by the services and the
router (`z.enum(['ACTIVE', 'INACTIVE', 'ARCHIVED'])`). -/
inductive Status where
  | ACTIVE
  | INACTIVE
  | ARCHIVED
deriving DecidableEq, Repr

/-- The campus-scoped permissions consulted by the services. -/
inductive CampusPermission where
  | MANAGE_CAMPUS_TEACHERS
  | MANAGE_CAMPUS_STUDENTS
  | VIEW_CAMPUS_CLASSES
deriving DecidableEq, Repr

/-- Outcomes surfaced by the service methods. The TRPC error codes thrown by
the source, plus the two storage-level constraint failures a raw INSERT can
raise (unique-index and foreign-key violations, per the constraints in the
migration `src/unnamed/part_000`), which the services do not catch. -/
inductive Err where
  | NOT_FOUND
  | CONFLICT
  | FORBIDDEN
  | BAD_REQUEST
  | INTERNAL_SERVER_ERROR
  | UNIQUE_VIOLATION
  | FK_VIOLATION
deriving DecidableEq, Repr

/-- A row of the "TeacherCampus" table: id, teacherId, campusId, isPrimary,
status (timestamps omitted). -/
structure TeacherCampusRow where
  id : Nat
  teacherId : Nat
  campusId : Nat
  isPrimary : Bool
  status : Status
deriving DecidableEq, Repr

/-- A row of the "Class" table, with its campus resolved the way
`assignTeacherToClass` resolves it (`class_.classGroup.program.campusId`). -/
structure ClassRow where
  id : Nat
  campusId : Nat
deriving DecidableEq, Repr

/-- A row of the "TeacherClassAssignment" table. -/
structure ClassAssignmentRow where
  id : Nat
  teacherCampusId : Nat
  classId : Nat
  isClassTeacher : Bool
  status : Status
deriving DecidableEq, Repr

/-- A row of the "TeacherSubjectAssignment" table
(`classAssignmentId` is the `teacherClassAssignmentId` column). -/
structure SubjectAssignmentRow where
  id : Nat
  classAssignmentId : Nat
  subjectId : Nat
  status : Status
deriving DecidableEq, Repr

/-- The database state visible to the teacher-side services: the three
junction tables plus the id sets of the read-only entities they look up.
`nextId` is the source of fresh surrogate ids. -/
structure DB where
  teachers : List Nat
  campuses : List Nat
  classes : List ClassRow
  subjects : List Nat
  teacherCampus : List TeacherCampusRow
  classAssignments : List ClassAssignmentRow
  subjectAssignments : List SubjectAssignmentRow
  nextId : Nat
deriving DecidableEq, Repr

/-- The external collaborators consulted before mutating: the super-admin
role lookup on the User table and the permission oracle
(`CampusUserService.hasPermission`). -/
structure Env where
  superAdmin : Nat → Bool
  hasPermission : Nat → Nat → CampusPermission → Bool

/-- `SELECT * FROM "TeacherCampus" WHERE "teacherId" = t AND "campusId" = c`
(first row). -/
def findPair (db : DB) (t c : Nat) : Option TeacherCampusRow :=
  db.teacherCampus.find? (fun r => r.teacherId == t && r.campusId == c)

/-- The row-level effect of the clear-primary UPDATE on one row. -/
def clearStep (t : Nat) (r : TeacherCampusRow) : TeacherCampusRow :=
  if r.teacherId == t && r.isPrimary then { r with isPrimary := false } else r

/-- `UPDATE "TeacherCampus" SET "isPrimary" = false
WHERE "teacherId" = t AND "isPrimary" = true` — note: no status filter. -/
def clearPrimary (rows : List TeacherCampusRow) (t : Nat) : List TeacherCampusRow :=
  rows.map (clearStep t)

/-- The row-level effect of the set-primary UPDATE on one row. -/
def setStep (t c : Nat) (r : TeacherCampusRow) : TeacherCampusRow :=
  if r.teacherId == t && r.campusId == c then { r with isPrimary := true } else r

/-- `UPDATE "TeacherCampus" SET "isPrimary" = true
WHERE "teacherId" = t AND "campusId" = c`. -/
def setPrimaryOnPair (rows : List TeacherCampusRow) (t c : Nat) : List TeacherCampusRow :=
  rows.map (setStep t c)

/-- The row-level effect of the status UPDATE on one row. -/
def statusStep (t c : Nat) (st : Status) (r : TeacherCampusRow) : TeacherCampusRow :=
  if r.teacherId == t && r.campusId == c then { r with status := st } else r

/-- `CampusTeacherService.assignTeacherToCampus(userId, campusId, teacherId,
isPrimary)`: super-admin shortcut, permission check, teacher and campus
lookups, duplicate-pair check, optional clear of the existing primary, then
the INSERT of the new row with status ACTIVE. -/
def assignTeacherToCampus (env : Env) (db : DB) (userId campusId teacherId : Nat)
    (isPrimary : Bool) : DB × Except Err TeacherCampusRow :=
  if !env.superAdmin userId &&
      !env.hasPermission userId campusId CampusPermission.MANAGE_CAMPUS_TEACHERS then
    (db, .error .FORBIDDEN)
  else if !db.teachers.contains teacherId then
    (db, .error .NOT_FOUND)
  else if !db.campuses.contains campusId then
    (db, .error .NOT_FOUND)
  else
    match findPair db teacherId campusId with
    | some _ => (db, .error .CONFLICT)
    | none =>
      let rows := if isPrimary then clearPrimary db.teacherCampus teacherId else db.teacherCampus
      let newRow : TeacherCampusRow :=
        { id := db.nextId, teacherId := teacherId, campusId := campusId,
          isPrimary := isPrimary, status := Status.ACTIVE }
      ({ db with teacherCampus := rows ++ [newRow], nextId := db.nextId + 1 }, .ok newRow)

/-- `CampusTeacherService.setPrimaryCampus(userId, teacherId, campusId)`: the
existence check has no status filter; then clear-primary and set-primary run
as two separate raw UPDATEs; the closing teacher/campus lookups (for the
response object) raise INTERNAL_SERVER_ERROR after the updates if either is
missing. There is no permission check in this method. -/
def setPrimaryCampus (db : DB) (userId teacherId campusId : Nat) :
    DB × Except Err TeacherCampusRow :=
  match findPair db teacherId campusId with
  | none => (db, .error .NOT_FOUND)
  | some r0 =>
    let rows := setPrimaryOnPair (clearPrimary db.teacherCampus teacherId) teacherId campusId
    let db' := { db with teacherCampus := rows }
    if db.teachers.contains teacherId && db.campuses.contains campusId then
      (db', .ok { r0 with isPrimary := true })
    else
      (db', .error .INTERNAL_SERVER_ERROR)

/-- `CampusTeacherService.updateTeacherCampusStatus(userId, campusId,
teacherId, status)`: permission check, existence check on the pair, then an
unconditional `UPDATE ... SET "status" = status` on the pair; the closing
teacher/campus lookups raise INTERNAL_SERVER_ERROR after the update if
either is missing. No guard restricts which status transitions are allowed. -/
def updateTeacherCampusStatus (env : Env) (db : DB) (userId campusId teacherId : Nat)
    (status : Status) : DB × Except Err TeacherCampusRow :=
  if !env.hasPermission userId campusId CampusPermission.MANAGE_CAMPUS_TEACHERS then
    (db, .error .FORBIDDEN)
  else
    match findPair db teacherId campusId with
    | none => (db, .error .NOT_FOUND)
    | some r0 =>
      let rows := db.teacherCampus.map (statusStep teacherId campusId status)
      let db' := { db with teacherCampus := rows }
      if db.teachers.contains teacherId && db.campuses.contains campusId then
        (db', .ok { r0 with status := status })
      else
        (db', .error .INTERNAL_SERVER_ERROR)

/-- `CampusTeacherService.removeTeacherFromCampus(userId, campusId,
teacherId)`: permission check, existence check, then
`DELETE FROM "TeacherCampus" WHERE "teacherId" = t AND "campusId" = c`.
The dependent "TeacherClassAssignment" and "TeacherSubjectAssignment" rows
are removed by the ON DELETE CASCADE foreign keys declared in the migration
(`src/unnamed/part_000`). -/
def removeTeacherFromCampusCascade (env : Env) (db : DB) (userId campusId teacherId : Nat) :
    DB × Except Err Bool :=
  if !env.hasPermission userId campusId CampusPermission.MANAGE_CAMPUS_TEACHERS then
    (db, .error .FORBIDDEN)
  else
    match findPair db teacherId campusId with
    | none => (db, .error .NOT_FOUND)
    | some _ =>
      let removedIds := (db.teacherCampus.filter
        (fun r => r.teacherId == teacherId && r.campusId == campusId)).map (fun r => r.id)
      let removedClassIds := (db.classAssignments.filter
        (fun ca => removedIds.contains ca.teacherCampusId)).map (fun ca => ca.id)
      ({ db with
          teacherCampus := db.teacherCampus.filter
            (fun r => !(r.teacherId == teacherId && r.campusId == campusId)),
          classAssignments := db.classAssignments.filter
            (fun ca => !removedIds.contains ca.teacherCampusId),
          subjectAssignments := db.subjectAssignments.filter
            (fun sa => !removedClassIds.contains sa.classAssignmentId) },
        .ok true)

/-- `TeacherCampusService.removeTeacherFromCampus(teacherId, campusId)`:
existence check, then the three DELETEs (subject rows of the assignment's
class rows, its class rows, the assignment itself) inside one
`prisma.$transaction`. The DELETEs are total, so the transaction never
aborts once entered. -/
def removeTeacherFromCampusTx (db : DB) (teacherId campusId : Nat) :
    DB × Except Err Bool :=
  match findPair db teacherId campusId with
  | none => (db, .error .NOT_FOUND)
  | some a =>
    let removedClassIds := (db.classAssignments.filter
      (fun ca => ca.teacherCampusId == a.id)).map (fun ca => ca.id)
    ({ db with
        subjectAssignments := db.subjectAssignments.filter
          (fun sa => !removedClassIds.contains sa.classAssignmentId),
        classAssignments := db.classAssignments.filter
          (fun ca => !(ca.teacherCampusId == a.id)),
        teacherCampus := db.teacherCampus.filter (fun r => !(r.id == a.id)) },
      .ok true)

/-- The per-subject INSERT loop of `assignTeacherToClass`: each raw INSERT
into "TeacherSubjectAssignment" fails on the "subjectId" foreign key if the
subject does not exist, and on the unique
(teacherClassAssignmentId, subjectId) index if the pair is already present.
The loop is not wrapped in a transaction, so on failure the rows inserted
earlier remain. -/
def insertSubjects (db : DB) (caId : Nat) : List Nat → DB × Except Err Unit
  | [] => (db, .ok ())
  | s :: rest =>
    if !db.subjects.contains s then
      (db, .error .FK_VIOLATION)
    else if db.subjectAssignments.any
        (fun sa => sa.classAssignmentId == caId && sa.subjectId == s) then
      (db, .error .UNIQUE_VIOLATION)
    else
      insertSubjects
        { db with
            subjectAssignments := db.subjectAssignments ++
              [{ id := db.nextId, classAssignmentId := caId, subjectId := s,
                 status := Status.ACTIVE }],
            nextId := db.nextId + 1 }
        caId rest

/-- `TeacherCampusService.assignTeacherToClass({teacherCampusId, classId,
isClassTeacher, subjectIds})`: resolve the campus assignment by id, resolve
the class (campus via classGroup.program), BAD_REQUEST on campus mismatch,
INSERT the class assignment (the unique (teacherCampusId, classId) index can
fail it), then insert subject rows one by one with no transaction. -/
def assignTeacherToClass (db : DB) (teacherCampusId classId : Nat)
    (isClassTeacher : Bool) (subjectIds : List Nat) : DB × Except Err ClassAssignmentRow :=
  match db.teacherCampus.find? (fun r => r.id == teacherCampusId) with
  | none => (db, .error .NOT_FOUND)
  | some tc =>
    match db.classes.find? (fun c => c.id == classId) with
    | none => (db, .error .NOT_FOUND)
    | some cls =>
      if cls.campusId != tc.campusId then
        (db, .error .BAD_REQUEST)
      else if db.classAssignments.any
          (fun ca => ca.teacherCampusId == teacherCampusId && ca.classId == classId) then
        (db, .error .UNIQUE_VIOLATION)
      else
        let caRow : ClassAssignmentRow :=
          { id := db.nextId, teacherCampusId := teacherCampusId, classId := classId,
            isClassTeacher := isClassTeacher, status := Status.ACTIVE }
        let db1 := { db with classAssignments := db.classAssignments ++ [caRow],
                             nextId := db.nextId + 1 }
        let out := insertSubjects db1 caRow.id subjectIds
        (out.fst, match out.snd with
          | .ok _ => .ok caRow
          | .error e => .error e)

/-- A row of the "StudentCampus" table (student-side mirror). -/
structure StudentCampusRow where
  studentId : Nat
  campusId : Nat
  isPrimary : Bool
  status : Status
deriving DecidableEq, Repr

/-- `studentCampus.updateMany({where: {studentId, isPrimary: true}, data:
{isPrimary: false}})` — no status filter. -/
def studentClearPrimary (rows : List StudentCampusRow) (s : Nat) : List StudentCampusRow :=
  rows.map (fun r => if r.studentId == s && r.isPrimary then { r with isPrimary := false } else r)

/-- `CampusStudentService.setPrimaryCampus(userId, studentId, campusId)`
(src/unnamed/part_013): permission check, then the clear-primary
`updateMany` runs first, and only then the `update` on the
(studentId, campusId) pair; when that pair has no row the `update` throws
and is re-thrown as INTERNAL_SERVER_ERROR — but the clear has already been
applied, since no transaction wraps the two statements. -/
def studentSetPrimaryCampus (env : Env) (rows : List StudentCampusRow)
    (userId studentId campusId : Nat) : List StudentCampusRow × Except Err StudentCampusRow :=
  if !env.hasPermission userId campusId CampusPermission.MANAGE_CAMPUS_STUDENTS then
    (rows, .error .FORBIDDEN)
  else
    let rows1 := studentClearPrimary rows studentId
    match rows1.find? (fun r => r.studentId == studentId && r.campusId == campusId) with
    | none => (rows1, .error .INTERNAL_SERVER_ERROR)
    | some r =>
      (rows1.map (fun x => if x.studentId == studentId && x.campusId == campusId then
          { x with isPrimary := true } else x),
        .ok { r with isPrimary := true })

/-- The mutating operations of the service layer, for stating invariants
over operation sequences. -/
inductive Op where
  | assign (userId campusId teacherId : Nat) (isPrimary : Bool)
  | setPrimary (userId teacherId campusId : Nat)
  | updateStatus (userId campusId teacherId : Nat) (status : Status)
  | remove (userId campusId teacherId : Nat)
  | assignClass (teacherCampusId classId : Nat) (isClassTeacher : Bool) (subjectIds : List Nat)
deriving Repr

/-- The state after one operation, successful or not: the services run
outside any transaction (apart from the deletes of
`removeTeacherFromCampusTx`), so a failed call leaves whatever its completed
statements wrote. -/
def applyOp (env : Env) (db : DB) : Op → DB
  | .assign u c t p => (assignTeacherToCampus env db u c t p).fst
  | .setPrimary u t c => (setPrimaryCampus db u t c).fst
  | .updateStatus u c t st => (updateTeacherCampusStatus env db u c t st).fst
  | .remove u c t => (removeTeacherFromCampusCascade env db u c t).fst
  | .assignClass tcId clsId f subj => (assignTeacherToClass db tcId clsId f subj).fst

/-- All states observable between operations of a sequence, the initial one
included. -/
def execTrace (env : Env) (db : DB) : List Op → List DB
  | [] => [db]
  | op :: rest => db :: execTrace env (applyOp env db op) rest

/-- Rows counting as a primary assignment of teacher `t` (any status). -/
def primForB (t : Nat) (r : TeacherCampusRow) : Bool :=
  r.teacherId == t && r.isPrimary

/-- Rows counting as an Active primary assignment of teacher `t`. -/
def activePrimForB (t : Nat) (r : TeacherCampusRow) : Bool :=
  r.teacherId == t && r.isPrimary && r.status == Status.ACTIVE

/-- Rows for the (teacher, campus) pair. -/
def pairB (t c : Nat) (r : TeacherCampusRow) : Bool :=
  r.teacherId == t && r.campusId == c

/-- At most one assignment row of teacher `t` has isPrimary = true
(rows of any status counted). -/
def atMostOnePrimary (rows : List TeacherCampusRow) (t : Nat) : Prop :=
  rows.countP (primForB t) ≤ 1

/-- At most one Active assignment row of teacher `t` has isPrimary = true. -/
def atMostOneActivePrimary (rows : List TeacherCampusRow) (t : Nat) : Prop :=
  rows.countP (activePrimForB t) ≤ 1

/-- The unique (teacherId, campusId) index of "TeacherCampus": no two rows
share the pair. -/
def pairsUnique (rows : List TeacherCampusRow) : Prop :=
  rows.Pairwise (fun a b => a.teacherId ≠ b.teacherId ∨ a.campusId ≠ b.campusId)

/-- The cross-campus invariant: every class-assignment row hangs off a
campus assignment whose campus equals the campus of the referenced class. -/
def classCampusInv (db : DB) : Prop :=
  ∀ ca ∈ db.classAssignments, ∀ tc ∈ db.teacherCampus, ca.teacherCampusId = tc.id →
    ∀ cls ∈ db.classes, ca.classId = cls.id → cls.campusId = tc.campusId

/-- Storage-level well-formedness: primary keys are unique, every stored id
and every class-assignment parent reference is below the freshness counter,
and the unique pair index of "TeacherCampus" holds. -/
def WF (db : DB) : Prop :=
  db.teacherCampus.Pairwise (fun a b => a.id ≠ b.id) ∧
  db.classes.Pairwise (fun a b => a.id ≠ b.id) ∧
  (∀ r ∈ db.teacherCampus, r.id < db.nextId) ∧
  (∀ ca ∈ db.classAssignments, ca.teacherCampusId < db.nextId) ∧
  pairsUnique db.teacherCampus

instance {e a : Type} [DecidableEq e] [DecidableEq a] : DecidableEq (Except e a) :=
  fun x y =>
    match x, y with
    | .ok v, .ok w =>
      if h : v = w then isTrue (h ▸ rfl) else isFalse (fun he => h (Except.ok.inj he))
    | .error v, .error w =>
      if h : v = w then isTrue (h ▸ rfl) else isFalse (fun he => h (Except.error.inj he))
    | .ok _, .error _ => isFalse (fun he => Except.noConfusion he)
    | .error _, .ok _ => isFalse (fun he => Except.noConfusion he)

instance (rows : List TeacherCampusRow) (t : Nat) : Decidable (atMostOnePrimary rows t) := by
  unfold atMostOnePrimary
  infer_instance

instance (rows : List TeacherCampusRow) (t : Nat) :
    Decidable (atMostOneActivePrimary rows t) := by
  unfold atMostOneActivePrimary
  infer_instance

instance (rows : List TeacherCampusRow) : Decidable (pairsUnique rows) := by
  unfold pairsUnique
  infer_instance

instance (db : DB) : Decidable (classCampusInv db) := by
  unfold classCampusInv
  infer_instance

instance (db : DB) : Decidable (WF db) := by
  unfold WF pairsUnique
  infer_instance

/-- Oracle granting every permission, with no super-admins. -/
def envYes : Env := { superAdmin := fun _ => false, hasPermission := fun _ _ _ => true }

/-- Oracle denying every permission, with no super-admins. -/
def envNo : Env := { superAdmin := fun _ => false, hasPermission := fun _ _ _ => false }

/-- A small concrete database: teacher 3 with a primary Active assignment at
campus 1; campus 2 also exists; class 20 belongs to campus 1; subject 5
exists. -/
def dbW : DB :=
  { teachers := [3], campuses := [1, 2],
    classes := [{ id := 20, campusId := 1 }], subjects := [5],
    teacherCampus := [{ id := 0, teacherId := 3, campusId := 1, isPrimary := true,
                        status := Status.ACTIVE }],
    classAssignments := [], subjectAssignments := [], nextId := 10 }

/-- A database for exercising the cross-campus check: teacher 3 is assigned
(assignment id 0) at campus 1; class 20 belongs to campus 1 while class 21
belongs to campus 2; subject 5 exists. -/
def dbX : DB :=
  { teachers := [3], campuses := [1, 2],
    classes := [{ id := 20, campusId := 1 }, { id := 21, campusId := 2 }],
    subjects := [5],
    teacherCampus := [{ id := 0, teacherId := 3, campusId := 1, isPrimary := true,
                        status := Status.ACTIVE }],
    classAssignments := [], subjectAssignments := [], nextId := 10 }

/-- `TeacherCampusService.updateAssignmentStatus(teacherCampusId, status)`:
`UPDATE "TeacherCampus" SET status = st WHERE id = teacherCampusId RETURNING
...`; NOT_FOUND when no row matched. No guard restricts which transitions
are allowed. -/
def updateAssignmentStatus (db : DB) (tcId : Nat) (st : Status) :
    DB × Except Err TeacherCampusRow :=
  match db.teacherCampus.find? (fun r => r.id == tcId) with
  | none => (db, .error .NOT_FOUND)
  | some r =>
    ({ db with
        teacherCampus := db.teacherCampus.map
          (fun x => if x.id == tcId then { x with status := st } else x) },
      .ok { r with status := st })

/-- A database where teacher 3's only assignment, at campus 2, is INACTIVE
(so no Active assignment exists for the pair). -/
def dbC7 : DB :=
  { teachers := [3], campuses := [2], classes := [], subjects := [],
    teacherCampus := [{ id := 0, teacherId := 3, campusId := 2, isPrimary := false,
                        status := Status.INACTIVE }],
    classAssignments := [], subjectAssignments := [], nextId := 1 }

/-- A database with an ARCHIVED assignment for (teacher 3, campus 2). -/
def dbC8 : DB :=
  { teachers := [3], campuses := [2], classes := [], subjects := [],
    teacherCampus := [{ id := 0, teacherId := 3, campusId := 2, isPrimary := false,
                        status := Status.ARCHIVED }],
    classAssignments := [], subjectAssignments := [], nextId := 1 }

/-- A database where teacher 3 holds a still-primary ARCHIVED assignment at
campus 2 next to a non-primary Active assignment at campus 1. -/
def dbC10 : DB :=
  { teachers := [3], campuses := [1, 2], classes := [], subjects := [],
    teacherCampus := [
      { id := 0, teacherId := 3, campusId := 2, isPrimary := true,
        status := Status.ARCHIVED },
      { id := 1, teacherId := 3, campusId := 1, isPrimary := false,
        status := Status.ACTIVE }],
    classAssignments := [], subjectAssignments := [], nextId := 2 }

/-- A database for the cascade-delete scenario: teacher 3 is assigned at
campus 1 (assignment 0, with class assignment 4 on class 20 and subject
assignment 6 on subject 5) and at campus 2 (assignment 1, primary). -/
def dbC5 : DB :=
  { teachers := [3], campuses := [1, 2],
    classes := [{ id := 20, campusId := 1 }], subjects := [5],
    teacherCampus := [
      { id := 0, teacherId := 3, campusId := 1, isPrimary := false,
        status := Status.ACTIVE },
      { id := 1, teacherId := 3, campusId := 2, isPrimary := true,
        status := Status.ACTIVE }],
    classAssignments := [
      { id := 4, teacherCampusId := 0, classId := 20, isClassTeacher := true,
        status := Status.ACTIVE }],
    subjectAssignments := [
      { id := 6, classAssignmentId := 4, subjectId := 5, status := Status.ACTIVE }],
    nextId := 10 }

/-- Student-side rows for the atomicity scenario: student 7's single
assignment, at campus 1, is primary. -/
def sRows0 : List StudentCampusRow :=
  [{ studentId := 7, campusId := 1, isPrimary := true, status := Status.ACTIVE }]

/-! ### List helpers -/

theorem countP_map_eq {α : Type} (p q : α → Bool) (f : α → α) (l : List α)
    (h : ∀ x ∈ l, p (f x) = q x) : (l.map f).countP p = l.countP q := by
  induction l with
  | nil => rfl
  | cons a l ih =>
    simp only [List.map_cons, List.countP_cons, h a (by simp),
      ih (fun x hx => h x (by simp [hx]))]

theorem countP_le_of_imp {α : Type} (p q : α → Bool) (l : List α)
    (h : ∀ x ∈ l, p x = true → q x = true) : l.countP p ≤ l.countP q := by
  induction l with
  | nil => simp
  | cons a l ih =>
    simp only [List.countP_cons]
    have h1 := ih (fun x hx => h x (by simp [hx]))
    by_cases hp : p a = true
    · rw [hp, h a (by simp) hp]; omega
    · have : (if p a = true then 1 else 0) = 0 := by simp [hp]
      rw [this]
      omega

theorem find?_map_pres {α : Type} (p : α → Bool) (f : α → α) (l : List α)
    (h : ∀ x, p (f x) = p x) : (l.map f).find? p = (l.find? p).map f := by
  induction l with
  | nil => rfl
  | cons a l ih =>
    cases hp : p a with
    | true =>
      rw [List.find?_cons_of_pos _ hp, List.map_cons,
        List.find?_cons_of_pos _ (by rw [h a]; exact hp)]
      rfl
    | false =>
      rw [List.find?_cons_of_neg _ (by simp [hp]), List.map_cons,
        List.find?_cons_of_neg _ (by rw [h a]; simp [hp]), ih]

theorem mem_eq_of_find?_key {α : Type} (key : α → Nat) (l : List α)
    (hl : l.Pairwise (fun a b => key a ≠ key b)) {n : Nat} {y : α}
    (hy : l.find? (fun x => key x == n) = some y) {z : α} (hz : z ∈ l)
    (hk : key z = n) : z = y := by
  induction l with
  | nil => cases hz
  | cons a l ih =>
    rw [List.pairwise_cons] at hl
    cases ha : (key a == n) with
    | true =>
      simp only [List.find?_cons, ha, Option.some.injEq] at hy
      rcases List.mem_cons.mp hz with rfl | hz'
      · exact hy
      · exfalso
        have hne := hl.1 z hz'
        have han : key a = n := by simpa using ha
        omega
    | false =>
      simp only [List.find?_cons, ha] at hy
      rcases List.mem_cons.mp hz with rfl | hz'
      · exfalso
        rw [show (key z == n) = true by simpa using hk] at ha
        cases ha
      · exact ih hl.2 hy hz'

/-! ### Pointwise facts about the row-update steps -/

theorem clearStep_fields (t : Nat) (r : TeacherCampusRow) :
    (clearStep t r).id = r.id ∧ (clearStep t r).teacherId = r.teacherId ∧
    (clearStep t r).campusId = r.campusId ∧ (clearStep t r).status = r.status := by
  unfold clearStep; split <;> simp

theorem setStep_fields (t c : Nat) (r : TeacherCampusRow) :
    (setStep t c r).id = r.id ∧ (setStep t c r).teacherId = r.teacherId ∧
    (setStep t c r).campusId = r.campusId ∧ (setStep t c r).status = r.status := by
  unfold setStep; split <;> simp

theorem statusStep_fields (t c : Nat) (st : Status) (r : TeacherCampusRow) :
    (statusStep t c st r).id = r.id ∧ (statusStep t c st r).teacherId = r.teacherId ∧
    (statusStep t c st r).campusId = r.campusId ∧
    (statusStep t c st r).isPrimary = r.isPrimary := by
  unfold statusStep; split <;> simp

theorem primForB_clearStep (t : Nat) (r : TeacherCampusRow) :
    primForB t (clearStep t r) = false := by
  unfold primForB clearStep
  by_cases h1 : (r.teacherId == t && r.isPrimary) = true
  · rw [if_pos h1]; simp
  · rw [if_neg h1]; simpa using h1

theorem primForB_clearStep_other (t t' : Nat) (r : TeacherCampusRow) (h : t ≠ t') :
    primForB t (clearStep t' r) = primForB t r := by
  unfold primForB clearStep
  by_cases h1 : (r.teacherId == t' && r.isPrimary) = true
  · rw [if_pos h1]
    have : r.teacherId = t' := by
      have := h1
      simp only [Bool.and_eq_true, beq_iff_eq] at this
      exact this.1
    simp [this, h, Ne.symm h]
  · rw [if_neg h1]

theorem primForB_setStep_other (t t' c : Nat) (r : TeacherCampusRow) (h : t ≠ t') :
    primForB t (setStep t' c r) = primForB t r := by
  unfold primForB setStep
  by_cases h1 : (r.teacherId == t' && r.campusId == c) = true
  · rw [if_pos h1]
    have : r.teacherId = t' := by
      simp only [Bool.and_eq_true, beq_iff_eq] at h1
      exact h1.1
    simp [this, h, Ne.symm h]
  · rw [if_neg h1]

theorem primForB_setClear (t c : Nat) (r : TeacherCampusRow) :
    primForB t (setStep t c (clearStep t r)) = pairB t c r := by
  unfold primForB setStep clearStep pairB
  cases hT : (r.teacherId == t) <;> cases hC : (r.campusId == c) <;>
    cases hP : r.isPrimary <;> simp [hT, hC, hP]

theorem primForB_statusStep (t t' c : Nat) (st : Status) (r : TeacherCampusRow) :
    primForB t (statusStep t' c st r) = primForB t r := by
  unfold primForB statusStep
  split <;> simp

/-! ### Counting and uniqueness lemmas -/

theorem clearPrimary_countP_self (rows : List TeacherCampusRow) (t : Nat) :
    (clearPrimary rows t).countP (primForB t) = 0 := by
  rw [List.countP_eq_zero]
  intro a ha
  rw [clearPrimary, List.mem_map] at ha
  obtain ⟨b, _, rfl⟩ := ha
  rw [primForB_clearStep]
  simp

theorem countP_pairB_le_one (rows : List TeacherCampusRow) (t c : Nat)
    (h : pairsUnique rows) : rows.countP (pairB t c) ≤ 1 := by
  induction rows with
  | nil => simp
  | cons a l ih =>
    rw [pairsUnique, List.pairwise_cons] at h
    rw [List.countP_cons]
    by_cases hp : pairB t c a = true
    · have h0 : l.countP (pairB t c) = 0 := by
        rw [List.countP_eq_zero]
        intro b hb hpb
        have hne := h.1 b hb
        unfold pairB at hp hpb
        simp only [Bool.and_eq_true, beq_iff_eq] at hp hpb
        rcases hne with h1 | h1
        · exact h1 (hp.1.trans hpb.1.symm)
        · exact h1 (hp.2.trans hpb.2.symm)
      rw [h0, hp]
      simp
    · have hle := ih h.2
      simp only [hp]
      simpa using hle

theorem pairsUnique_map_fields (f : TeacherCampusRow → TeacherCampusRow)
    (hf : ∀ r, (f r).teacherId = r.teacherId ∧ (f r).campusId = r.campusId)
    (rows : List TeacherCampusRow) (h : pairsUnique rows) : pairsUnique (rows.map f) := by
  unfold pairsUnique at *
  rw [List.pairwise_map]
  refine h.imp ?_
  intro a b hab
  rcases hab with h1 | h1
  · exact Or.inl (by rw [(hf a).1, (hf b).1]; exact h1)
  · exact Or.inr (by rw [(hf a).2, (hf b).2]; exact h1)

theorem pairsUnique_filter (p : TeacherCampusRow → Bool) (rows : List TeacherCampusRow)
    (h : pairsUnique rows) : pairsUnique (rows.filter p) :=
  List.Pairwise.sublist (List.filter_sublist rows) h

theorem pairsUnique_append_new (rows : List TeacherCampusRow) (nr : TeacherCampusRow)
    (h : pairsUnique rows)
    (hnew : ∀ r ∈ rows, ¬(r.teacherId = nr.teacherId ∧ r.campusId = nr.campusId)) :
    pairsUnique (rows ++ [nr]) := by
  unfold pairsUnique at *
  rw [List.pairwise_append]
  refine ⟨h, List.pairwise_singleton _ _, ?_⟩
  intro a ha b hb
  rw [List.mem_singleton] at hb
  rw [hb]
  rcases Decidable.em (a.teacherId = nr.teacherId) with h1 | h1
  · exact Or.inr (fun hc => hnew a ha ⟨h1, hc⟩)
  · exact Or.inl h1

theorem countP_setClear (rows : List TeacherCampusRow) (t c : Nat) :
    (setPrimaryOnPair (clearPrimary rows t) t c).countP (primForB t) =
      rows.countP (pairB t c) := by
  unfold setPrimaryOnPair clearPrimary
  induction rows with
  | nil => rfl
  | cons a l ih =>
    simp only [List.map_cons, List.countP_cons, ih, primForB_setClear]

theorem countP_setClear_other (rows : List TeacherCampusRow) (t t0 c : Nat) (ht : t ≠ t0) :
    (setPrimaryOnPair (clearPrimary rows t0) t0 c).countP (primForB t) =
      rows.countP (primForB t) := by
  unfold setPrimaryOnPair clearPrimary
  induction rows with
  | nil => rfl
  | cons a l ih =>
    simp only [List.map_cons, List.countP_cons, ih]
    rw [primForB_setStep_other t t0 c _ ht, primForB_clearStep_other t t0 _ ht]

theorem active_le_prim (rows : List TeacherCampusRow) (t : Nat)
    (h : atMostOnePrimary rows t) : atMostOneActivePrimary rows t := by
  unfold atMostOnePrimary at h
  unfold atMostOneActivePrimary
  refine le_trans (countP_le_of_imp _ _ _ ?_) h
  intro x _ hx
  unfold activePrimForB at hx
  unfold primForB
  simp only [Bool.and_eq_true] at hx ⊢
  exact hx.1

/-! ### State characterization of each operation -/

theorem insertSubjects_fst (caId : Nat) (l : List Nat) : ∀ db : DB,
    (insertSubjects db caId l).fst.teachers = db.teachers ∧
    (insertSubjects db caId l).fst.campuses = db.campuses ∧
    (insertSubjects db caId l).fst.classes = db.classes ∧
    (insertSubjects db caId l).fst.teacherCampus = db.teacherCampus ∧
    (insertSubjects db caId l).fst.classAssignments = db.classAssignments ∧
    db.nextId ≤ (insertSubjects db caId l).fst.nextId := by
  induction l with
  | nil => intro db; simp [insertSubjects]
  | cons s rest ih =>
    intro db
    unfold insertSubjects
    by_cases h1 : db.subjects.contains s = true
    · have c1 : ¬((!db.subjects.contains s) = true) := by rw [h1]; simp
      rw [if_neg c1]
      by_cases h2 : (db.subjectAssignments.any
          (fun sa => sa.classAssignmentId == caId && sa.subjectId == s)) = true
      · rw [if_pos h2]
        simp
      · rw [if_neg h2]
        have h := ih { db with
          subjectAssignments := db.subjectAssignments ++
            [{ id := db.nextId, classAssignmentId := caId, subjectId := s,
               status := Status.ACTIVE }],
          nextId := db.nextId + 1 }
        refine ⟨h.1, h.2.1, h.2.2.1, h.2.2.2.1, h.2.2.2.2.1, ?_⟩
        exact le_trans (Nat.le_succ _) h.2.2.2.2.2
    · have c1 : (!db.subjects.contains s) = true := by
        simp only [Bool.not_eq_true']
        exact Bool.not_eq_true _ |>.mp h1
      rw [if_pos c1]
      simp

theorem assign_fst_cases (env : Env) (db : DB) (u c t0 : Nat) (p : Bool) :
    (assignTeacherToCampus env db u c t0 p).fst = db ∨
    (findPair db t0 c = none ∧
      (assignTeacherToCampus env db u c t0 p).fst =
        { db with
            teacherCampus :=
              (if p then clearPrimary db.teacherCampus t0 else db.teacherCampus) ++
              [{ id := db.nextId, teacherId := t0, campusId := c, isPrimary := p,
                 status := Status.ACTIVE }],
            nextId := db.nextId + 1 }) := by
  unfold assignTeacherToCampus
  split
  · exact Or.inl rfl
  split
  · exact Or.inl rfl
  split
  · exact Or.inl rfl
  cases hfp : findPair db t0 c with
  | some r =>
    refine Or.inl ?_
    simp only [hfp]
  | none =>
    refine Or.inr ⟨rfl, ?_⟩
    simp only [hfp]

theorem setPrimary_fst_cases (db : DB) (u t0 c : Nat) :
    (setPrimaryCampus db u t0 c).fst = db ∨
    (findPair db t0 c).isSome = true ∧
    (setPrimaryCampus db u t0 c).fst =
      { db with teacherCampus := setPrimaryOnPair (clearPrimary db.teacherCampus t0) t0 c } := by
  unfold setPrimaryCampus
  cases hfp : findPair db t0 c with
  | none =>
    refine Or.inl ?_
    simp only [hfp]
  | some r0 =>
    refine Or.inr ⟨rfl, ?_⟩
    simp only [hfp]
    split <;> rfl

theorem updateStatus_fst_cases (env : Env) (db : DB) (u c t0 : Nat) (st : Status) :
    (updateTeacherCampusStatus env db u c t0 st).fst = db ∨
    (updateTeacherCampusStatus env db u c t0 st).fst =
      { db with teacherCampus := db.teacherCampus.map (statusStep t0 c st) } := by
  unfold updateTeacherCampusStatus
  split
  · exact Or.inl rfl
  cases hfp : findPair db t0 c with
  | none =>
    refine Or.inl ?_
    simp only [hfp]
  | some r0 =>
    refine Or.inr ?_
    simp only [hfp]
    split <;> rfl

theorem remove_fst_cases (env : Env) (db : DB) (u c t0 : Nat) :
    (removeTeacherFromCampusCascade env db u c t0).fst = db ∨
    (removeTeacherFromCampusCascade env db u c t0).fst =
      { db with
          teacherCampus := db.teacherCampus.filter
            (fun r => !(r.teacherId == t0 && r.campusId == c)),
          classAssignments := db.classAssignments.filter
            (fun ca => !((db.teacherCampus.filter
              (fun r => r.teacherId == t0 && r.campusId == c)).map
                (fun r => r.id)).contains ca.teacherCampusId),
          subjectAssignments := db.subjectAssignments.filter
            (fun sa => !((db.classAssignments.filter
              (fun ca => ((db.teacherCampus.filter
                (fun r => r.teacherId == t0 && r.campusId == c)).map
                  (fun r => r.id)).contains ca.teacherCampusId)).map
                (fun ca => ca.id)).contains sa.classAssignmentId) } := by
  unfold removeTeacherFromCampusCascade
  split
  · exact Or.inl rfl
  cases hfp : findPair db t0 c with
  | none =>
    refine Or.inl ?_
    simp only [hfp]
  | some r0 =>
    refine Or.inr ?_
    simp only [hfp]

theorem assignClass_fst_cases (db : DB) (tcId clsId : Nat) (f : Bool) (subj : List Nat) :
    (assignTeacherToClass db tcId clsId f subj).fst = db ∨
    (∃ tc ∈ db.teacherCampus, ∃ cls ∈ db.classes,
      db.teacherCampus.find? (fun r => r.id == tcId) = some tc ∧
      db.classes.find? (fun x => x.id == clsId) = some cls ∧
      cls.campusId = tc.campusId ∧
      (assignTeacherToClass db tcId clsId f subj).fst =
        (insertSubjects
          { db with
              classAssignments := db.classAssignments ++
                [{ id := db.nextId, teacherCampusId := tcId, classId := clsId,
                   isClassTeacher := f, status := Status.ACTIVE }],
              nextId := db.nextId + 1 }
          db.nextId subj).fst) := by
  unfold assignTeacherToClass
  cases hf : db.teacherCampus.find? (fun r => r.id == tcId) with
  | none =>
    refine Or.inl ?_
    simp only [hf]
  | some tc =>
    cases hc : db.classes.find? (fun x => x.id == clsId) with
    | none =>
      refine Or.inl ?_
      simp only [hf, hc]
    | some cls =>
      by_cases hm : (cls.campusId != tc.campusId) = true
      · refine Or.inl ?_
        simp only [hf, hc]
        rw [if_pos hm]
      · by_cases hd : (db.classAssignments.any
            (fun ca => ca.teacherCampusId == tcId && ca.classId == clsId)) = true
        · refine Or.inl ?_
          simp only [hf, hc]
          rw [if_neg hm, if_pos hd]
        · refine Or.inr ⟨tc, List.mem_of_find?_eq_some hf, cls, List.mem_of_find?_eq_some hc,
            rfl, rfl, by simpa using hm, ?_⟩
          simp only [hf, hc]
          rw [if_neg hm, if_neg hd]

/-! ### Preservation of the primary-flag invariant by every operation -/

theorem applyOp_primInv (env : Env) (db : DB) (op : Op) (hu : pairsUnique db.teacherCampus) :
    pairsUnique (applyOp env db op).teacherCampus ∧
    ∀ t, atMostOnePrimary db.teacherCampus t →
      atMostOnePrimary (applyOp env db op).teacherCampus t := by
  cases op with
  | assign u c t0 p =>
    simp only [applyOp]
    rcases assign_fst_cases env db u c t0 p with h | ⟨hfp, h⟩
    · rw [h]; exact ⟨hu, fun t hp => hp⟩
    · rw [h]
      cases p with
      | false =>
        simp only [Bool.false_eq_true, if_false]
        constructor
        · apply pairsUnique_append_new _ _ hu
          intro r hr hpair
          have hnone := List.find?_eq_none.mp (by unfold findPair at hfp; exact hfp) r hr
          apply hnone
          simp only [Bool.and_eq_true, beq_iff_eq]
          exact ⟨hpair.1, hpair.2⟩
        · intro t hp
          unfold atMostOnePrimary at *
          rw [List.countP_append]
          have h2 : List.countP (primForB t)
              [{ id := db.nextId, teacherId := t0, campusId := c, isPrimary := false,
                 status := Status.ACTIVE }] = 0 := by
            simp [primForB]
          rw [h2]
          omega
      | true =>
        simp only [if_true]
        constructor
        · apply pairsUnique_append_new
          · exact pairsUnique_map_fields _
              (fun r => ⟨(clearStep_fields t0 r).2.1, (clearStep_fields t0 r).2.2.1⟩) _ hu
          · intro r hr hpair
            rw [clearPrimary, List.mem_map] at hr
            obtain ⟨b, hb, rfl⟩ := hr
            have hnone := List.find?_eq_none.mp (by unfold findPair at hfp; exact hfp) b hb
            apply hnone
            have e1 := (clearStep_fields t0 b).2.1
            have e2 := (clearStep_fields t0 b).2.2.1
            simp only [Bool.and_eq_true, beq_iff_eq]
            exact ⟨by rw [← e1]; exact hpair.1, by rw [← e2]; exact hpair.2⟩
        · intro t hp
          unfold atMostOnePrimary at *
          rw [List.countP_append]
          by_cases ht : t = t0
          · subst ht
            rw [show clearPrimary db.teacherCampus t = db.teacherCampus.map (clearStep t) from rfl,
              countP_map_eq _ (fun _ => false) _ _
                (fun x _ => by rw [primForB_clearStep])]
            simp [primForB]
          · have e : (clearPrimary db.teacherCampus t0).countP (primForB t)
                = db.teacherCampus.countP (primForB t) :=
              countP_map_eq _ _ _ _ (fun x _ => primForB_clearStep_other t t0 x ht)
            have h2 : List.countP (primForB t)
                [{ id := db.nextId, teacherId := t0, campusId := c, isPrimary := true,
                   status := Status.ACTIVE }] = 0 := by
              have hne : (t0 == t) = false := by
                simp only [beq_eq_false_iff_ne]
                exact fun hx => ht hx.symm
              simp [primForB, hne]
            rw [e, h2]
            omega
  | setPrimary u t0 c =>
    simp only [applyOp]
    rcases setPrimary_fst_cases db u t0 c with h | ⟨_, h⟩
    · rw [h]; exact ⟨hu, fun t hp => hp⟩
    · rw [h]
      constructor
      · apply pairsUnique_map_fields _
          (fun r => ⟨(setStep_fields t0 c r).2.1, (setStep_fields t0 c r).2.2.1⟩)
        exact pairsUnique_map_fields _
          (fun r => ⟨(clearStep_fields t0 r).2.1, (clearStep_fields t0 r).2.2.1⟩) _ hu
      · intro t hp
        unfold atMostOnePrimary at *
        show List.countP (primForB t)
          (setPrimaryOnPair (clearPrimary db.teacherCampus t0) t0 c) ≤ 1
        by_cases ht : t = t0
        · subst ht
          rw [countP_setClear]
          exact countP_pairB_le_one _ _ _ hu
        · rw [countP_setClear_other _ _ _ _ ht]
          exact hp
  | updateStatus u c t0 st =>
    simp only [applyOp]
    rcases updateStatus_fst_cases env db u c t0 st with h | h
    · rw [h]; exact ⟨hu, fun t hp => hp⟩
    · rw [h]
      constructor
      · exact pairsUnique_map_fields _
          (fun r => ⟨(statusStep_fields t0 c st r).2.1, (statusStep_fields t0 c st r).2.2.1⟩) _ hu
      · intro t hp
        unfold atMostOnePrimary at *
        rw [countP_map_eq _ (primForB t) _ _ (fun x _ => primForB_statusStep t t0 c st x)]
        exact hp
  | remove u c t0 =>
    simp only [applyOp]
    rcases remove_fst_cases env db u c t0 with h | h
    · rw [h]; exact ⟨hu, fun t hp => hp⟩
    · rw [h]
      constructor
      · exact pairsUnique_filter _ _ hu
      · intro t hp
        unfold atMostOnePrimary at *
        exact le_trans (List.Sublist.countP_le _ (List.filter_sublist _)) hp
  | assignClass tcId clsId f subj =>
    simp only [applyOp]
    rcases assignClass_fst_cases db tcId clsId f subj with h | ⟨tc, _, cls, _, _, _, _, h⟩
    · rw [h]; exact ⟨hu, fun t hp => hp⟩
    · rw [h]
      have hpres := insertSubjects_fst db.nextId subj
        { db with
            classAssignments := db.classAssignments ++
              [{ id := db.nextId, teacherCampusId := tcId, classId := clsId,
                 isClassTeacher := f, status := Status.ACTIVE }],
            nextId := db.nextId + 1 }
      rw [hpres.2.2.2.1]
      exact ⟨hu, fun t hp => hp⟩

/-- C1: for every person, over any sequence of the service's mutating
operations starting from a state that satisfies the unique
(teacherId, campusId) index and has at most one primary-flagged assignment
row for that person, every state observable between operations has at most
one Active "TeacherCampus" row of that person with isPrimary = true. -/
theorem c1_at_most_one_active_primary (env : Env) (db : DB) (t : Nat) (ops : List Op)
    (hu : pairsUnique db.teacherCampus) (hp : atMostOnePrimary db.teacherCampus t) :
    ∀ db' ∈ execTrace env db ops, atMostOneActivePrimary db'.teacherCampus t := by
  induction ops generalizing db with
  | nil =>
    intro db' hdb'
    simp only [execTrace, List.mem_singleton] at hdb'
    subst hdb'
    exact active_le_prim _ _ hp
  | cons op rest ih =>
    intro db' hdb'
    simp only [execTrace, List.mem_cons] at hdb'
    rcases hdb' with rfl | hdb'
    · exact active_le_prim _ _ hp
    · have h2 := applyOp_primInv env db op hu
      exact ih (applyOp env db op) h2.1 (h2.2 t hp) db' hdb'

theorem c1_witness :
    atMostOneActivePrimary
      (applyOp envYes (applyOp envYes dbW (Op.assign 9 2 3 true))
        (Op.setPrimary 9 3 1)).teacherCampus 3 :=
  c1_at_most_one_active_primary envYes dbW 3 [Op.assign 9 2 3 true, Op.setPrimary 9 3 1]
    (by decide) (by decide) _ (by decide)

/-! ### Preservation of well-formedness and the cross-campus invariant -/

theorem classInv_transfer (db db' : DB)
    (hca : ∀ ca ∈ db'.classAssignments, ca ∈ db.classAssignments)
    (hcls : db'.classes = db.classes)
    (htc : ∀ r ∈ db'.teacherCampus, ∃ b ∈ db.teacherCampus,
      r.id = b.id ∧ r.campusId = b.campusId)
    (hinv : classCampusInv db) : classCampusInv db' := by
  intro ca hca' tc htc' hid cls hcls' hcid
  obtain ⟨b, hb, e1, e2⟩ := htc tc htc'
  rw [e2]
  refine hinv ca (hca ca hca') b hb (by rw [← e1]; exact hid) cls ?_ hcid
  rw [← hcls]
  exact hcls'

theorem rows_if_clear_mem (p : Bool) (rows : List TeacherCampusRow) (t0 : Nat) :
    ∀ r ∈ (if p then clearPrimary rows t0 else rows), ∃ b ∈ rows,
      r.id = b.id ∧ r.campusId = b.campusId := by
  cases p
  · simp only [Bool.false_eq_true, if_false]
    intro r hr
    exact ⟨r, hr, rfl, rfl⟩
  · simp only [if_true]
    intro r hr
    rw [clearPrimary, List.mem_map] at hr
    obtain ⟨b, hb, rfl⟩ := hr
    exact ⟨b, hb, (clearStep_fields t0 b).1, (clearStep_fields t0 b).2.2.1⟩

theorem applyOp_wfInv (env : Env) (db : DB) (op : Op) (hwf : WF db)
    (hinv : classCampusInv db) :
    WF (applyOp env db op) ∧ classCampusInv (applyOp env db op) := by
  obtain ⟨h1, h2, h3, h4, h5⟩ := hwf
  have hp5 := (applyOp_primInv env db op h5).1
  cases op with
  | assign u c t0 p =>
    simp only [applyOp] at hp5 ⊢
    rcases assign_fst_cases env db u c t0 p with h | ⟨hfp, h⟩
    · rw [h] at hp5 ⊢
      exact ⟨⟨h1, h2, h3, h4, h5⟩, hinv⟩
    · rw [h] at hp5 ⊢
      have hmem := rows_if_clear_mem p db.teacherCampus t0
      refine ⟨⟨?_, h2, ?_, ?_, hp5⟩, ?_⟩
      · show ((if p then clearPrimary db.teacherCampus t0 else db.teacherCampus) ++
          [({ id := db.nextId, teacherId := t0, campusId := c, isPrimary := p,
              status := Status.ACTIVE } : TeacherCampusRow)]).Pairwise (fun a b => a.id ≠ b.id)
        rw [List.pairwise_append]
        refine ⟨?_, List.pairwise_singleton _ _, ?_⟩
        · cases p
          · simpa using h1
          · simp only [if_true]
            rw [clearPrimary, List.pairwise_map]
            exact h1.imp (fun hab => by
              rw [(clearStep_fields t0 _).1, (clearStep_fields t0 _).1]; exact hab)
        · intro a ha b hb
          rw [List.mem_singleton] at hb
          rw [hb]
          obtain ⟨b2, hb2, e1, _⟩ := hmem a ha
          have := h3 b2 hb2
          show a.id ≠ db.nextId
          omega
      · intro r hr
        rw [List.mem_append] at hr
        rcases hr with hr | hr
        · obtain ⟨b2, hb2, e1, _⟩ := hmem r hr
          have := h3 b2 hb2
          show r.id < db.nextId + 1
          omega
        · rw [List.mem_singleton] at hr
          rw [hr]
          show db.nextId < db.nextId + 1
          omega
      · intro ca hca
        have := h4 ca hca
        show ca.teacherCampusId < db.nextId + 1
        omega
      · intro ca hca tc htc hid cls hcls hcid
        rcases List.mem_append.mp htc with htc | htc
        · obtain ⟨b, hb, e1, e2⟩ := hmem tc htc
          rw [e2]
          exact hinv ca hca b hb (by rw [← e1]; exact hid) cls hcls hcid
        · exfalso
          rw [List.mem_singleton] at htc
          have hid2 : ca.teacherCampusId = db.nextId := by rw [hid, htc]
          have := h4 ca hca
          omega
  | setPrimary u t0 c =>
    simp only [applyOp] at hp5 ⊢
    rcases setPrimary_fst_cases db u t0 c with h | ⟨_, h⟩
    · rw [h] at hp5 ⊢
      exact ⟨⟨h1, h2, h3, h4, h5⟩, hinv⟩
    · rw [h] at hp5 ⊢
      have hmem : ∀ r ∈ setPrimaryOnPair (clearPrimary db.teacherCampus t0) t0 c,
          ∃ b ∈ db.teacherCampus, r.id = b.id ∧ r.campusId = b.campusId := by
        intro r hr
        rw [setPrimaryOnPair, List.mem_map] at hr
        obtain ⟨r1, hr1, rfl⟩ := hr
        rw [clearPrimary, List.mem_map] at hr1
        obtain ⟨b, hb, rfl⟩ := hr1
        refine ⟨b, hb, ?_, ?_⟩
        · rw [(setStep_fields t0 c _).1, (clearStep_fields t0 b).1]
        · rw [(setStep_fields t0 c _).2.2.1, (clearStep_fields t0 b).2.2.1]
      refine ⟨⟨?_, h2, ?_, h4, hp5⟩, ?_⟩
      · show (setPrimaryOnPair (clearPrimary db.teacherCampus t0) t0 c).Pairwise
          (fun a b => a.id ≠ b.id)
        rw [setPrimaryOnPair, clearPrimary, List.map_map, List.pairwise_map]
        exact h1.imp (fun hab => by
          rw [Function.comp_apply, Function.comp_apply,
            (setStep_fields t0 c _).1, (clearStep_fields t0 _).1,
            (setStep_fields t0 c _).1, (clearStep_fields t0 _).1]
          exact hab)
      · intro r hr
        obtain ⟨b, hb, e1, _⟩ := hmem r hr
        have := h3 b hb
        show r.id < db.nextId
        omega
      · exact classInv_transfer db _ (fun ca hca => hca) rfl hmem hinv
  | updateStatus u c t0 st =>
    simp only [applyOp] at hp5 ⊢
    rcases updateStatus_fst_cases env db u c t0 st with h | h
    · rw [h] at hp5 ⊢
      exact ⟨⟨h1, h2, h3, h4, h5⟩, hinv⟩
    · rw [h] at hp5 ⊢
      have hmem : ∀ r ∈ db.teacherCampus.map (statusStep t0 c st),
          ∃ b ∈ db.teacherCampus, r.id = b.id ∧ r.campusId = b.campusId := by
        intro r hr
        rw [List.mem_map] at hr
        obtain ⟨b, hb, rfl⟩ := hr
        exact ⟨b, hb, (statusStep_fields t0 c st b).1, (statusStep_fields t0 c st b).2.2.1⟩
      refine ⟨⟨?_, h2, ?_, h4, hp5⟩, ?_⟩
      · show (db.teacherCampus.map (statusStep t0 c st)).Pairwise (fun a b => a.id ≠ b.id)
        rw [List.pairwise_map]
        exact h1.imp (fun hab => by
          rw [(statusStep_fields t0 c st _).1, (statusStep_fields t0 c st _).1]
          exact hab)
      · intro r hr
        obtain ⟨b, hb, e1, _⟩ := hmem r hr
        have := h3 b hb
        show r.id < db.nextId
        omega
      · exact classInv_transfer db _ (fun ca hca => hca) rfl hmem hinv
  | remove u c t0 =>
    simp only [applyOp] at hp5 ⊢
    rcases remove_fst_cases env db u c t0 with h | h
    · rw [h] at hp5 ⊢
      exact ⟨⟨h1, h2, h3, h4, h5⟩, hinv⟩
    · rw [h] at hp5 ⊢
      refine ⟨⟨?_, h2, ?_, ?_, hp5⟩, ?_⟩
      · exact List.Pairwise.sublist (List.filter_sublist _) h1
      · intro r hr
        exact h3 r (List.mem_of_mem_filter hr)
      · intro ca hca
        exact h4 ca (List.mem_of_mem_filter hca)
      · exact classInv_transfer db _ (fun ca hca => List.mem_of_mem_filter hca) rfl
          (fun r hr => ⟨r, List.mem_of_mem_filter hr, rfl, rfl⟩) hinv
  | assignClass tcId clsId f subj =>
    simp only [applyOp] at hp5 ⊢
    rcases assignClass_fst_cases db tcId clsId f subj with h | ⟨tc, htcm, cls, hclsm, hf, hc, hcampus, h⟩
    · rw [h] at hp5 ⊢
      exact ⟨⟨h1, h2, h3, h4, h5⟩, hinv⟩
    · rw [h] at hp5 ⊢
      have hpres := insertSubjects_fst db.nextId subj
        { db with
            classAssignments := db.classAssignments ++
              [{ id := db.nextId, teacherCampusId := tcId, classId := clsId,
                 isClassTeacher := f, status := Status.ACTIVE }],
            nextId := db.nextId + 1 }
      have htcid : tc.id = tcId := by
        have := List.find?_some hf
        simpa using this
      have hclsid : cls.id = clsId := by
        have := List.find?_some hc
        simpa using this
      have hnid : db.nextId + 1 ≤ (insertSubjects
          { db with
              classAssignments := db.classAssignments ++
                [{ id := db.nextId, teacherCampusId := tcId, classId := clsId,
                   isClassTeacher := f, status := Status.ACTIVE }],
              nextId := db.nextId + 1 }
          db.nextId subj).fst.nextId := hpres.2.2.2.2.2
      refine ⟨⟨?_, ?_, ?_, ?_, hp5⟩, ?_⟩
      · rw [hpres.2.2.2.1]
        exact h1
      · rw [hpres.2.2.1]
        exact h2
      · rw [hpres.2.2.2.1]
        intro r hr
        have := h3 r hr
        omega
      · rw [hpres.2.2.2.2.1]
        intro ca hca
        rcases List.mem_append.mp hca with hca | hca
        · have := h4 ca hca
          omega
        · rw [List.mem_singleton] at hca
          rw [hca]
          show tcId < _
          have := h3 tc htcm
          omega
      · unfold classCampusInv
        rw [hpres.2.2.1, hpres.2.2.2.1, hpres.2.2.2.2.1]
        intro ca hca tc2 htc2 hid cls2 hcls2 hcid
        rcases List.mem_append.mp hca with hca | hca
        · exact hinv ca hca tc2 htc2 hid cls2 hcls2 hcid
        · rw [List.mem_singleton] at hca
          rw [hca] at hid hcid
          have e1 : tc2 = tc := mem_eq_of_find?_key (fun r => r.id) db.teacherCampus h1
            hf htc2 hid.symm
          have e2 : cls2 = cls := mem_eq_of_find?_key (fun x => x.id) db.classes h2
            hc hcls2 hcid.symm
          rw [e1, e2]
          exact hcampus

/-- C2: from a well-formed state satisfying the cross-campus invariant,
every state reachable through the service's operations still satisfies it;
and whenever the class resolved by assignTeacherToClass belongs to a campus
other than the campus assignment's, the call returns BAD_REQUEST with the
state unchanged, creating no row. -/
theorem c2_class_campus_invariant (env : Env) (db : DB) (ops : List Op)
    (hwf : WF db) (hinv : classCampusInv db) :
    (∀ db' ∈ execTrace env db ops, classCampusInv db') ∧
    (∀ tcId clsId f subj tc cls,
      db.teacherCampus.find? (fun r => r.id == tcId) = some tc →
      db.classes.find? (fun x => x.id == clsId) = some cls →
      cls.campusId ≠ tc.campusId →
      assignTeacherToClass db tcId clsId f subj = (db, .error .BAD_REQUEST)) := by
  constructor
  · induction ops generalizing db with
    | nil =>
      intro db' hdb'
      simp only [execTrace, List.mem_singleton] at hdb'
      subst hdb'
      exact hinv
    | cons op rest ih =>
      intro db' hdb'
      simp only [execTrace, List.mem_cons] at hdb'
      rcases hdb' with rfl | hdb'
      · exact hinv
      · have h2 := applyOp_wfInv env db op hwf hinv
        exact ih (applyOp env db op) h2.1 h2.2 db' hdb'
  · intro tcId clsId f subj tc cls hf hc hne
    unfold assignTeacherToClass
    simp only [hf, hc]
    rw [if_pos (by simpa using hne)]

theorem c2_witness :
    classCampusInv (applyOp envYes dbX (Op.assignClass 0 20 true [5])) ∧
    assignTeacherToClass dbX 0 21 true [] = (dbX, .error .BAD_REQUEST) := by
  have h := c2_class_campus_invariant envYes dbX [Op.assignClass 0 20 true [5]]
    (by decide) (by decide)
  exact ⟨h.1 _ (by decide),
    h.2 0 21 true [] ⟨0, 3, 1, true, Status.ACTIVE⟩ ⟨21, 2⟩
      (by decide) (by decide) (by decide)⟩

/-! ### C6: permission denial creates no row -/

/-- C6: when the actor is not a super-admin and the permission oracle denies
campus-management permission at the target campus, assignTeacherToCampus
fails with FORBIDDEN and returns the state unchanged — no CampusAssignment
row is created. -/
theorem c6_forbidden_no_row (env : Env) (db : DB) (u c t : Nat) (p : Bool)
    (hsa : env.superAdmin u = false)
    (hperm : env.hasPermission u c CampusPermission.MANAGE_CAMPUS_TEACHERS = false) :
    assignTeacherToCampus env db u c t p = (db, .error .FORBIDDEN) := by
  have hc : (!env.superAdmin u &&
      !env.hasPermission u c CampusPermission.MANAGE_CAMPUS_TEACHERS) = true := by
    rw [hsa, hperm]
    rfl
  unfold assignTeacherToCampus
  rw [if_pos hc]

theorem c6_witness :
    assignTeacherToCampus envNo dbW 9 1 3 false = (dbW, .error .FORBIDDEN) :=
  c6_forbidden_no_row envNo dbW 9 1 3 false rfl rfl

/-! ### C8: Archived is not terminal -/

/-- C8 counterexample: the assignment for (teacher 3, campus 2) is ARCHIVED,
yet updateTeacherCampusStatus happily sets it back to ACTIVE and reports
success — so Archived is not a terminal status in the code. -/
theorem c8_archived_counterexample :
    (findPair dbC8 3 2).map (fun r => r.status) = some Status.ARCHIVED ∧
    (updateTeacherCampusStatus envYes dbC8 9 2 3 Status.ACTIVE).fst.teacherCampus =
      [{ id := 0, teacherId := 3, campusId := 2, isPrimary := false,
         status := Status.ACTIVE }] ∧
    (updateTeacherCampusStatus envYes dbC8 9 2 3 Status.ACTIVE).snd =
      .ok { id := 0, teacherId := 3, campusId := 2, isPrimary := false,
            status := Status.ACTIVE } := by
  decide

/-- C8 amended: the status update is unconditional. Whenever the actor has
permission and the pair row exists (for the pair-keyed method), or the row
with the given id exists (for the id-keyed method), the row's status becomes
exactly the requested one, whatever it was before — Archived included. -/
theorem c8_amended_unconditional_status :
    (∀ (env : Env) (db : DB) (u c t : Nat) (st : Status) (r : TeacherCampusRow),
      env.hasPermission u c CampusPermission.MANAGE_CAMPUS_TEACHERS = true →
      findPair db t c = some r →
      ∀ x ∈ (updateTeacherCampusStatus env db u c t st).fst.teacherCampus,
        x.teacherId = t → x.campusId = c → x.status = st) ∧
    (∀ (db : DB) (tcId : Nat) (st : Status) (r : TeacherCampusRow),
      db.teacherCampus.find? (fun x => x.id == tcId) = some r →
      ∀ x ∈ (updateAssignmentStatus db tcId st).fst.teacherCampus,
        x.id = tcId → x.status = st) := by
  constructor
  · intro env db u c t st r hperm hfp
    have hcond : ¬((!env.hasPermission u c CampusPermission.MANAGE_CAMPUS_TEACHERS) = true) := by
      rw [hperm]
      simp
    have hfst : (updateTeacherCampusStatus env db u c t st).fst =
        { db with teacherCampus := db.teacherCampus.map (statusStep t c st) } := by
      unfold updateTeacherCampusStatus
      rw [if_neg hcond]
      simp only [hfp]
      split <;> rfl
    rw [hfst]
    intro x hx hxt hxc
    have hx' : x ∈ db.teacherCampus.map (statusStep t c st) := hx
    rw [List.mem_map] at hx'
    obtain ⟨b, hb, rfl⟩ := hx'
    have hbt : b.teacherId = t := by
      rw [← (statusStep_fields t c st b).2.1]
      exact hxt
    have hbc : b.campusId = c := by
      rw [← (statusStep_fields t c st b).2.2.1]
      exact hxc
    show (statusStep t c st b).status = st
    unfold statusStep
    rw [if_pos (by simp [hbt, hbc])]
  · intro db tcId st r hfp
    have hfst : (updateAssignmentStatus db tcId st).fst =
        { db with
            teacherCampus := db.teacherCampus.map
              (fun x => if x.id == tcId then { x with status := st } else x) } := by
      unfold updateAssignmentStatus
      simp only [hfp]
    rw [hfst]
    intro x hx hxid
    have hx' : x ∈ db.teacherCampus.map
        (fun x => if x.id == tcId then { x with status := st } else x) := hx
    rw [List.mem_map] at hx'
    obtain ⟨b, hb, rfl⟩ := hx'
    by_cases hcondb : (b.id == tcId) = true
    · rw [if_pos hcondb] at hxid ⊢
    · exfalso
      rw [if_neg hcondb] at hxid
      exact hcondb (by simp [hxid])

theorem c8_witness :
    (⟨0, 3, 2, false, Status.INACTIVE⟩ : TeacherCampusRow).status = Status.INACTIVE :=
  c8_amended_unconditional_status.1 envYes dbC8 9 2 3 Status.INACTIVE
    ⟨0, 3, 2, false, Status.ARCHIVED⟩ rfl (by decide)
    ⟨0, 3, 2, false, Status.INACTIVE⟩ (by decide) rfl rfl

/-! ### C7: setPrimaryCampus existence check ignores status -/

/-- C7 counterexample: teacher 3's only assignment at campus 2 is INACTIVE —
no Active assignment exists for the pair — yet setPrimaryCampus does not
fail with NOT_FOUND: it succeeds and returns the (still INACTIVE) assignment
with isPrimary = true, because the existence check of the source has no
status filter. -/
theorem c7_not_found_counterexample :
    dbC7.teacherCampus.countP
      (fun r => r.teacherId == 3 && r.campusId == 2 && r.status == Status.ACTIVE) = 0 ∧
    (setPrimaryCampus dbC7 9 3 2).snd ≠ .error .NOT_FOUND ∧
    (setPrimaryCampus dbC7 9 3 2).snd =
      .ok { id := 0, teacherId := 3, campusId := 2, isPrimary := true,
            status := Status.INACTIVE } := by
  decide

/-- C7 amended: setPrimaryCampus fails with NOT_FOUND exactly when no
assignment row of ANY status exists for (teacherId, campusId); when a row of
any status exists (and the referenced teacher and campus records resolve),
the call succeeds and returns that assignment with isPrimary = true. -/
theorem c7_amended_not_found_iff (db : DB) (u t c : Nat)
    (ht : db.teachers.contains t = true) (hc : db.campuses.contains c = true) :
    ((setPrimaryCampus db u t c).snd = .error .NOT_FOUND ↔ findPair db t c = none) ∧
    (∀ r, findPair db t c = some r →
      (setPrimaryCampus db u t c).snd = .ok { r with isPrimary := true }) := by
  have hok : ∀ r, findPair db t c = some r →
      (setPrimaryCampus db u t c).snd = .ok { r with isPrimary := true } := by
    intro r hfp
    unfold setPrimaryCampus
    simp only [hfp]
    rw [ht, hc]
    rfl
  constructor
  · constructor
    · intro h
      cases hfp : findPair db t c with
      | none => rfl
      | some r =>
        exfalso
        rw [hok r hfp] at h
        cases h
    · intro h
      unfold setPrimaryCampus
      simp only [h]
  · exact hok

theorem c7_witness :
    ((setPrimaryCampus dbC7 9 3 2).snd = .error .NOT_FOUND ↔ findPair dbC7 3 2 = none) ∧
    (setPrimaryCampus dbC7 9 3 2).snd =
      .ok { id := 0, teacherId := 3, campusId := 2, isPrimary := true,
            status := Status.INACTIVE } := by
  have h := c7_amended_not_found_iff dbC7 9 3 2 (by decide) (by decide)
  exact ⟨h.1, h.2 ⟨0, 3, 2, false, Status.INACTIVE⟩ (by decide)⟩

/-! ### C10: clear-primary ignores status -/

/-- C10: the clear-primary UPDATE has no status filter, so after a
successful setPrimaryCampus every assignment row of the person other than
the target pair — Inactive and Archived rows included — carries
isPrimary = false, and at most one isPrimary = true remains across ALL of
the person's rows of any status. (The first conjunct is the clear step
itself: it demotes every row of the person it touches, whatever its
status.) -/
theorem c10_clear_primary_all_statuses (db : DB) (u t c : Nat) (r : TeacherCampusRow)
    (hu : pairsUnique db.teacherCampus) (h : findPair db t c = some r) :
    (∀ x ∈ clearPrimary db.teacherCampus t, x.teacherId = t → x.isPrimary = false) ∧
    (∀ x ∈ (setPrimaryCampus db u t c).fst.teacherCampus,
      x.teacherId = t → x.campusId ≠ c → x.isPrimary = false) ∧
    atMostOnePrimary (setPrimaryCampus db u t c).fst.teacherCampus t := by
  have hfst : (setPrimaryCampus db u t c).fst =
      { db with teacherCampus := setPrimaryOnPair (clearPrimary db.teacherCampus t) t c } := by
    unfold setPrimaryCampus
    simp only [h]
    split <;> rfl
  refine ⟨?_, ?_, ?_⟩
  · intro x hx hxt
    rw [clearPrimary, List.mem_map] at hx
    obtain ⟨b, hb, rfl⟩ := hx
    have hbt : b.teacherId = t := by
      rw [← (clearStep_fields t b).2.1]
      exact hxt
    show (clearStep t b).isPrimary = false
    unfold clearStep
    by_cases hcond : (b.teacherId == t && b.isPrimary) = true
    · rw [if_pos hcond]
    · rw [if_neg hcond]
      cases hbp : b.isPrimary
      · rfl
      · exact absurd (by simp [hbt, hbp]) hcond
  · rw [hfst]
    intro x hx hxt hxc
    have hx' : x ∈ setPrimaryOnPair (clearPrimary db.teacherCampus t) t c := hx
    rw [setPrimaryOnPair, List.mem_map] at hx'
    obtain ⟨y, hy, rfl⟩ := hx'
    rw [clearPrimary, List.mem_map] at hy
    obtain ⟨b, hb, rfl⟩ := hy
    have hbt : b.teacherId = t := by
      rw [← (clearStep_fields t b).2.1, ← (setStep_fields t c (clearStep t b)).2.1]
      exact hxt
    have hbc : b.campusId ≠ c := by
      rw [← (clearStep_fields t b).2.2.1, ← (setStep_fields t c (clearStep t b)).2.2.1]
      exact hxc
    show (setStep t c (clearStep t b)).isPrimary = false
    unfold setStep clearStep
    have hccond : (b.campusId == c) = false := by
      simp only [beq_eq_false_iff_ne]
      exact hbc
    cases hbp : b.isPrimary <;> simp [hbt, hbp, hccond]
  · rw [hfst]
    show List.countP (primForB t)
      (setPrimaryOnPair (clearPrimary db.teacherCampus t) t c) ≤ 1
    rw [countP_setClear]
    exact countP_pairB_le_one _ _ _ hu

theorem c10_witness :
    (⟨0, 3, 2, false, Status.ARCHIVED⟩ : TeacherCampusRow).isPrimary = false ∧
    atMostOnePrimary (setPrimaryCampus dbC10 9 3 1).fst.teacherCampus 3 := by
  have h := c10_clear_primary_all_statuses dbC10 9 3 1
    ⟨1, 3, 1, false, Status.ACTIVE⟩ (by decide) (by decide)
  exact ⟨h.2.1 ⟨0, 3, 2, false, Status.ARCHIVED⟩ (by decide) rfl (by decide), h.2.2⟩

/-! ### C9: setPrimaryCampus is idempotent -/

theorem setClear_step_idem (t c : Nat) (a : TeacherCampusRow) :
    setStep t c (clearStep t (setStep t c (clearStep t a))) =
      setStep t c (clearStep t a) := by
  unfold setStep clearStep
  cases hT : (a.teacherId == t) <;> cases hC : (a.campusId == c) <;>
    cases hP : a.isPrimary <;> simp [hT, hC, hP]

theorem setClear_idem (rows : List TeacherCampusRow) (t c : Nat) :
    setPrimaryOnPair (clearPrimary (setPrimaryOnPair (clearPrimary rows t) t c) t) t c =
      setPrimaryOnPair (clearPrimary rows t) t c := by
  unfold setPrimaryOnPair clearPrimary
  induction rows with
  | nil => rfl
  | cons a l ih =>
    simp only [List.map_cons, ih, setClear_step_idem]

theorem setPrimary_fst_found (db : DB) (u t c : Nat) (r : TeacherCampusRow)
    (h : findPair db t c = some r) :
    (setPrimaryCampus db u t c).fst =
      { db with teacherCampus := setPrimaryOnPair (clearPrimary db.teacherCampus t) t c } := by
  unfold setPrimaryCampus
  simp only [h]
  split <;> rfl

/-- C9: setPrimaryCampus is idempotent on the observable state. With an
existing assignment (of any status) at the target campus, calling it twice
with the same (personId, campusId) leaves exactly the rows, primary flags
and statuses of calling it once. -/
theorem c9_set_primary_idempotent (db : DB) (u t c : Nat) (r : TeacherCampusRow)
    (h : findPair db t c = some r) :
    (setPrimaryCampus (setPrimaryCampus db u t c).fst u t c).fst =
      (setPrimaryCampus db u t c).fst := by
  have hpred1 : ∀ x : TeacherCampusRow,
      ((clearStep t x).teacherId == t && (clearStep t x).campusId == c) =
        (x.teacherId == t && x.campusId == c) := by
    intro x
    rw [(clearStep_fields t x).2.1, (clearStep_fields t x).2.2.1]
  have hpred2 : ∀ x : TeacherCampusRow,
      ((setStep t c x).teacherId == t && (setStep t c x).campusId == c) =
        (x.teacherId == t && x.campusId == c) := by
    intro x
    rw [(setStep_fields t c x).2.1, (setStep_fields t c x).2.2.1]
  have hfst1 := setPrimary_fst_found db u t c r h
  have hfind2 : findPair
      { db with teacherCampus := setPrimaryOnPair (clearPrimary db.teacherCampus t) t c }
      t c = some (setStep t c (clearStep t r)) := by
    show (setPrimaryOnPair (clearPrimary db.teacherCampus t) t c).find?
      (fun x => x.teacherId == t && x.campusId == c) = _
    unfold setPrimaryOnPair clearPrimary
    rw [find?_map_pres _ _ _ hpred2, find?_map_pres _ _ _ hpred1]
    unfold findPair at h
    rw [h]
    rfl
  have hfst2 := setPrimary_fst_found
    { db with teacherCampus := setPrimaryOnPair (clearPrimary db.teacherCampus t) t c }
    u t c _ hfind2
  rw [hfst1, hfst2]
  show ({ db with
      teacherCampus := setPrimaryOnPair
        (clearPrimary (setPrimaryOnPair (clearPrimary db.teacherCampus t) t c) t) t c } : DB) =
    { db with teacherCampus := setPrimaryOnPair (clearPrimary db.teacherCampus t) t c }
  rw [setClear_idem]

theorem c9_witness :
    (setPrimaryCampus (setPrimaryCampus dbC10 9 3 1).fst 9 3 1).fst =
      (setPrimaryCampus dbC10 9 3 1).fst :=
  c9_set_primary_idempotent dbC10 9 3 1 ⟨1, 3, 1, false, Status.ACTIVE⟩ (by decide)

/-! ### C5: removal cascades and touches nothing else -/

/-- C5: a successful removePersonFromCampus deletes the (person, campus)
assignment with all of its dependent class-assignment and
subject-assignment rows (no orphan descendants remain), and every other
row — in particular every assignment of the person at any other campus,
with its isPrimary flag — is left exactly as it was; no new primary is
elected. -/
theorem c5_remove_cascades (env : Env) (db : DB) (u c t : Nat)
    (h : (removeTeacherFromCampusCascade env db u c t).snd = .ok true) :
    (∀ r ∈ (removeTeacherFromCampusCascade env db u c t).fst.teacherCampus,
      ¬(r.teacherId = t ∧ r.campusId = c)) ∧
    (∀ ca ∈ (removeTeacherFromCampusCascade env db u c t).fst.classAssignments,
      ∀ r ∈ db.teacherCampus, r.teacherId = t → r.campusId = c →
        ca.teacherCampusId ≠ r.id) ∧
    (∀ sa ∈ (removeTeacherFromCampusCascade env db u c t).fst.subjectAssignments,
      ∀ ca ∈ db.classAssignments,
        (∃ r ∈ db.teacherCampus, r.teacherId = t ∧ r.campusId = c ∧
          ca.teacherCampusId = r.id) →
        sa.classAssignmentId ≠ ca.id) ∧
    (∀ r ∈ db.teacherCampus, ¬(r.teacherId = t ∧ r.campusId = c) →
      r ∈ (removeTeacherFromCampusCascade env db u c t).fst.teacherCampus) ∧
    (∀ r ∈ (removeTeacherFromCampusCascade env db u c t).fst.teacherCampus,
      r ∈ db.teacherCampus) ∧
    (∀ ca ∈ db.classAssignments,
      (∀ r ∈ db.teacherCampus, r.teacherId = t → r.campusId = c →
        ca.teacherCampusId ≠ r.id) →
      ca ∈ (removeTeacherFromCampusCascade env db u c t).fst.classAssignments) := by
  by_cases hperm : (!env.hasPermission u c CampusPermission.MANAGE_CAMPUS_TEACHERS) = true
  · exfalso
    unfold removeTeacherFromCampusCascade at h
    rw [if_pos hperm] at h
    cases h
  · cases hfp : findPair db t c with
    | none =>
      exfalso
      unfold removeTeacherFromCampusCascade at h
      rw [if_neg hperm] at h
      simp only [hfp] at h
      cases h
    | some r0 =>
      have hfst : (removeTeacherFromCampusCascade env db u c t).fst =
          { db with
              teacherCampus := db.teacherCampus.filter
                (fun r => !(r.teacherId == t && r.campusId == c)),
              classAssignments := db.classAssignments.filter
                (fun ca => !((db.teacherCampus.filter
                  (fun r => r.teacherId == t && r.campusId == c)).map
                    (fun r => r.id)).contains ca.teacherCampusId),
              subjectAssignments := db.subjectAssignments.filter
                (fun sa => !((db.classAssignments.filter
                  (fun ca => ((db.teacherCampus.filter
                    (fun r => r.teacherId == t && r.campusId == c)).map
                      (fun r => r.id)).contains ca.teacherCampusId)).map
                    (fun ca => ca.id)).contains sa.classAssignmentId) } := by
        unfold removeTeacherFromCampusCascade
        rw [if_neg hperm]
        simp only [hfp]
      rw [hfst]
      refine ⟨?_, ?_, ?_, ?_, ?_, ?_⟩
      · intro r hr hand
        have h2 := (List.mem_filter.mp hr).2
        rw [hand.1, hand.2] at h2
        simp at h2
      · intro ca hca r hr hrt hrc heq
        have h2 := (List.mem_filter.mp hca).2
        apply (by simpa using h2 :
          ¬(((db.teacherCampus.filter
            (fun r => r.teacherId == t && r.campusId == c)).map
              (fun r => r.id)).contains ca.teacherCampusId = true))
        apply List.elem_eq_true_of_mem
        rw [heq]
        exact List.mem_map_of_mem _ (List.mem_filter.mpr ⟨hr, by simp [hrt, hrc]⟩)
      · intro sa hsa ca hca hex heq
        obtain ⟨r, hr, hrt, hrc, hid⟩ := hex
        have h2 := (List.mem_filter.mp hsa).2
        apply (by simpa using h2 :
          ¬(((db.classAssignments.filter
            (fun ca => ((db.teacherCampus.filter
              (fun r => r.teacherId == t && r.campusId == c)).map
                (fun r => r.id)).contains ca.teacherCampusId)).map
              (fun ca => ca.id)).contains sa.classAssignmentId = true))
        apply List.elem_eq_true_of_mem
        rw [heq]
        apply List.mem_map_of_mem
        apply List.mem_filter.mpr
        refine ⟨hca, ?_⟩
        apply List.elem_eq_true_of_mem
        rw [hid]
        exact List.mem_map_of_mem _ (List.mem_filter.mpr ⟨hr, by simp [hrt, hrc]⟩)
      · intro r hr hand
        apply List.mem_filter.mpr
        refine ⟨hr, ?_⟩
        simp only [Bool.not_eq_true']
        cases hb : (r.teacherId == t && r.campusId == c)
        · rfl
        · exfalso
          apply hand
          simpa using hb
      · intro r hr
        exact (List.mem_filter.mp hr).1
      · intro ca hca hno
        apply List.mem_filter.mpr
        refine ⟨hca, ?_⟩
        simp only [Bool.not_eq_true']
        cases hb : ((db.teacherCampus.filter
            (fun r => r.teacherId == t && r.campusId == c)).map
              (fun r => r.id)).contains ca.teacherCampusId
        · rfl
        · exfalso
          have hmem := List.mem_of_elem_eq_true hb
          rw [List.mem_map] at hmem
          obtain ⟨r, hrf, hrid⟩ := hmem
          have hrm := List.mem_filter.mp hrf
          have hpair := hrm.2
          simp only [Bool.and_eq_true, beq_iff_eq] at hpair
          exact hno r hrm.1 hpair.1 hpair.2 hrid.symm

theorem c5_witness :
    (removeTeacherFromCampusCascade envYes dbC5 9 1 3).snd = .ok true ∧
    ((⟨1, 3, 2, true, Status.ACTIVE⟩ : TeacherCampusRow) ∈
      (removeTeacherFromCampusCascade envYes dbC5 9 1 3).fst.teacherCampus) := by
  have h := c5_remove_cascades envYes dbC5 9 1 3 (by decide)
  exact ⟨by decide,
    h.2.2.2.1 ⟨1, 3, 2, true, Status.ACTIVE⟩ (by decide) (by decide)⟩

/-! ### C4: duplicate subjectIds are not deduplicated -/

/-- C4 counterexample: calling assignTeacherToClass with the same subjectId
twice does not deduplicate — the second INSERT violates the
(teacherClassAssignmentId, subjectId) unique index and the call fails,
while the class-assignment row and the first subject row remain behind
(the state differs from the pre-call state and equals the state of the
single-subject call, but the outcome is an error, not success). -/
theorem c4_duplicate_subjects_counterexample :
    (assignTeacherToClass dbX 0 20 true [5, 5]).snd = .error .UNIQUE_VIOLATION ∧
    (assignTeacherToClass dbX 0 20 true [5, 5]).fst ≠ dbX ∧
    (assignTeacherToClass dbX 0 20 true [5, 5]).fst =
      (assignTeacherToClass dbX 0 20 true [5]).fst := by
  decide

theorem insertSubjects_cons_ok (db : DB) (caId s : Nat) (rest : List Nat)
    (hs : db.subjects.contains s = true)
    (hdup : (db.subjectAssignments.any
      (fun sa => sa.classAssignmentId == caId && sa.subjectId == s)) = false) :
    insertSubjects db caId (s :: rest) =
      insertSubjects
        { db with
            subjectAssignments := db.subjectAssignments ++
              [{ id := db.nextId, classAssignmentId := caId, subjectId := s,
                 status := Status.ACTIVE }],
            nextId := db.nextId + 1 } caId rest := by
  have hc1 : ¬((!db.subjects.contains s) = true) := by
    rw [hs]
    simp
  have hc2 : ¬((db.subjectAssignments.any
      (fun sa => sa.classAssignmentId == caId && sa.subjectId == s)) = true) := by
    rw [hdup]
    simp
  simp only [insertSubjects]
  rw [if_neg hc1, if_neg hc2]

theorem insertSubjects_cons_dup (db : DB) (caId s : Nat) (rest : List Nat)
    (hs : db.subjects.contains s = true)
    (hdup : (db.subjectAssignments.any
      (fun sa => sa.classAssignmentId == caId && sa.subjectId == s)) = true) :
    insertSubjects db caId (s :: rest) = (db, .error .UNIQUE_VIOLATION) := by
  have hc1 : ¬((!db.subjects.contains s) = true) := by
    rw [hs]
    simp
  simp only [insertSubjects]
  rw [if_neg hc1, if_pos hdup]

/-- C4 amended: duplicate subjectIds in one call are NOT deduplicated. For
the per-subject insert loop of assignTeacherToClass, when the subject
exists and is not yet attached, the request [s, s] fails with the
unique-index violation on its second insert, leaving exactly the rows of
the successful request [s] (the first insert is kept: no transaction rolls
it back) — rather than succeeding as a deduplicated request would. -/
theorem c4_amended_duplicate_subjects (db : DB) (caId s : Nat)
    (hs : db.subjects.contains s = true)
    (hdup : (db.subjectAssignments.any
      (fun sa => sa.classAssignmentId == caId && sa.subjectId == s)) = false) :
    (insertSubjects db caId [s, s]).snd = .error .UNIQUE_VIOLATION ∧
    (insertSubjects db caId [s, s]).fst = (insertSubjects db caId [s]).fst := by
  have step1 := insertSubjects_cons_ok db caId s [s] hs hdup
  have step1b := insertSubjects_cons_ok db caId s [] hs hdup
  have hs2 : ({ db with
      subjectAssignments := db.subjectAssignments ++
        [{ id := db.nextId, classAssignmentId := caId, subjectId := s,
           status := Status.ACTIVE }],
      nextId := db.nextId + 1 } : DB).subjects.contains s = true := hs
  have hdup2 : (({ db with
      subjectAssignments := db.subjectAssignments ++
        [{ id := db.nextId, classAssignmentId := caId, subjectId := s,
           status := Status.ACTIVE }],
      nextId := db.nextId + 1 } : DB).subjectAssignments.any
      (fun sa => sa.classAssignmentId == caId && sa.subjectId == s)) = true := by
    show (db.subjectAssignments ++
      [({ id := db.nextId, classAssignmentId := caId, subjectId := s,
          status := Status.ACTIVE } : SubjectAssignmentRow)]).any
        (fun sa => sa.classAssignmentId == caId && sa.subjectId == s) = true
    rw [List.any_append]
    simp
  rw [step1, insertSubjects_cons_dup _ caId s [] hs2 hdup2, step1b]
  exact ⟨rfl, rfl⟩

theorem c4_witness :
    (insertSubjects dbX 99 [5, 5]).snd = .error .UNIQUE_VIOLATION ∧
    (insertSubjects dbX 99 [5, 5]).fst = (insertSubjects dbX 99 [5]).fst :=
  c4_amended_duplicate_subjects dbX 99 5 (by decide) (by decide)

/-! ### C3: operations are not atomic -/

/-- C3 counterexample: CampusStudentService.setPrimaryCampus clears the
student's primary flags before looking up the target pair; when the student
has no assignment at the target campus the call fails with
INTERNAL_SERVER_ERROR, yet the observable state is NOT the pre-call state —
the primary flag at the old campus has been cleared and stays cleared,
because no transaction wraps the two statements. -/
theorem c3_atomicity_counterexample :
    (studentSetPrimaryCampus envYes sRows0 9 7 2).snd = .error .INTERNAL_SERVER_ERROR ∧
    (studentSetPrimaryCampus envYes sRows0 9 7 2).fst ≠ sRows0 ∧
    (studentSetPrimaryCampus envYes sRows0 9 7 2).fst =
      [{ studentId := 7, campusId := 1, isPrimary := false, status := Status.ACTIVE }] := by
  decide

/-- C3 amended: only removeTeacherFromCampus (TeacherCampusService) is
all-or-nothing: its deletes run inside one transaction, and a failing call
(the NOT_FOUND pre-check) leaves the state untouched. The other mutating
operations execute their statements sequentially with no transaction, so a
mid-operation failure keeps the writes already made — in particular
CampusStudentService.setPrimaryCampus first clears the person's primary
flags and then fails when no assignment exists at the target campus,
returning with the flags still cleared. -/
theorem c3_amended_atomicity :
    (∀ (db : DB) (t c : Nat) (e : Err),
      (removeTeacherFromCampusTx db t c).snd = .error e →
      (removeTeacherFromCampusTx db t c).fst = db) ∧
    (∀ (env : Env) (rows : List StudentCampusRow) (u s c : Nat),
      env.hasPermission u c CampusPermission.MANAGE_CAMPUS_STUDENTS = true →
      (studentClearPrimary rows s).find?
        (fun r => r.studentId == s && r.campusId == c) = none →
      (studentSetPrimaryCampus env rows u s c).fst = studentClearPrimary rows s ∧
      (studentSetPrimaryCampus env rows u s c).snd = .error .INTERNAL_SERVER_ERROR) := by
  constructor
  · intro db t c e h
    unfold removeTeacherFromCampusTx at h ⊢
    cases hfp : findPair db t c with
    | none =>
      simp only [hfp]
    | some a =>
      exfalso
      simp only [hfp] at h
      cases h
  · intro env rows u s c hperm hnone
    have hc : ¬((!env.hasPermission u c CampusPermission.MANAGE_CAMPUS_STUDENTS) = true) := by
      rw [hperm]
      simp
    unfold studentSetPrimaryCampus
    rw [if_neg hc]
    simp [hnone]

theorem c3_witness :
    (removeTeacherFromCampusTx dbW 4 1).fst = dbW ∧
    (studentSetPrimaryCampus envYes sRows0 9 7 2).fst = studentClearPrimary sRows0 7 ∧
    (studentSetPrimaryCampus envYes sRows0 9 7 2).snd = .error .INTERNAL_SERVER_ERROR := by
  have h2 := c3_amended_atomicity.2 envYes sRows0 9 7 2 rfl (by decide)
  exact ⟨c3_amended_atomicity.1 dbW 4 1 .NOT_FOUND (by decide), h2.1, h2.2⟩

end AssignmentModel
